import Mathlib

/-!
Verification of the for-fix-sake plugin's content-acquisition and
keyword-scan pipeline, as a shallow embedding of the TypeScript source.

The embedding models strings at the character-list level so that the
JavaScript string operations used by the source (`includes`, `trim`,
`toLowerCase`, `split`, `join`, `substring`, `startsWith`) have direct,
executable counterparts.  Network and filesystem effects are abstracted
by oracle records supplied as explicit arguments; everything the code
computes from their answers (cache handling, repo-format validation,
snapshot reuse, line scanning, result construction) is translated
faithfully from the source.
-/

namespace ForFixSake

/-! ### JavaScript string primitives (character-level models) -/

/-- `p` is a prefix of `l` (executable). -/
def charsPrefix : List Char → List Char → Bool
  | [], _ => true
  | _ :: _, [] => false
  | a :: as, b :: bs => a = b && charsPrefix as bs

/-- `needle` occurs contiguously inside `hay` (executable). -/
def charsInfix (needle : List Char) : List Char → Bool
  | [] => charsPrefix needle []
  | c :: cs => charsPrefix needle (c :: cs) || charsInfix needle cs

/-- `hay.includes(needle)` for JavaScript strings. -/
def jsIncludes (hay needle : String) : Bool :=
  charsInfix needle.data hay.data

/-- ASCII case folding, the fragment of `String.prototype.toLowerCase`
exercised by the keyword scan. -/
def charLower (c : Char) : Char :=
  if 'A' ≤ c ∧ c ≤ 'Z' then Char.ofNat (c.toNat + 32) else c

/-- `s.toLowerCase()` (ASCII fragment). -/
def lowerStr (s : String) : String :=
  ⟨s.data.map charLower⟩

/-- Whitespace characters recognized by `String.prototype.trim` and
the `\s` regex class (ASCII fragment). -/
def isWS (c : Char) : Bool :=
  c = ' ' ∨ c = '\t' ∨ c = '\n' ∨ c = '\r' ∨ c = '\x0b' ∨ c = '\x0c'

/-- `s.trim()`. -/
def jsTrim (s : String) : String :=
  ⟨((s.data.dropWhile isWS).reverse.dropWhile isWS).reverse⟩

/-- `s.split(sep)` for a single-character separator, on character lists:
`"".split(sep)` is `[""]`, separators at the ends produce empty pieces. -/
def splitOnChar (sep : Char) : List Char → List (List Char)
  | [] => [[]]
  | c :: cs =>
    let r := splitOnChar sep cs
    if c = sep then [] :: r
    else
      match r with
      | h :: t => (c :: h) :: t
      | [] => [[c]]

/-- `s.split(sep)` for a single-character separator. -/
def jsSplit (sep : Char) (s : String) : List String :=
  (splitOnChar sep s.data).map (fun l => ⟨l⟩)

/-- `s.split(/\s+/)`: pieces between maximal whitespace runs, with an
empty piece at either end when the string starts/ends with whitespace,
and `[""]` on the empty string. -/
def splitWSChars : List Char → List (List Char)
  | [] => [[]]
  | c :: cs =>
    let r := splitWSChars cs
    if isWS c then
      match cs with
      | d :: _ => if isWS d then r else [] :: r
      | [] => [] :: r
    else
      match r with
      | h :: t => (c :: h) :: t
      | [] => [[c]]

/-- `s.split(/\s+/)`. -/
def jsSplitWS (s : String) : List String :=
  (splitWSChars s.data).map (fun l => ⟨l⟩)

/-- `arr.join(sep)` for an array of strings. -/
def jsJoin (sep : String) : List String → String
  | [] => ""
  | [s] => s
  | s :: rest => s ++ sep ++ jsJoin sep rest

/-- `s.startsWith(p)`. -/
def jsStartsWith (s p : String) : Bool :=
  charsPrefix p.data s.data

/-- `s.endsWith(suffix)` building block for the extension regex. -/
def jsEndsWith (s suffix : String) : Bool :=
  charsPrefix suffix.data.reverse s.data.reverse

/-- `s.substring(n)`: drop the first `n` characters. -/
def jsDrop (s : String) (n : Nat) : String :=
  ⟨s.data.drop n⟩

/-! ### Data model (source: interfaces in the plugin files) -/

/-- One reported keyword occurrence, as pushed onto `results` by both
`fetchIssues` and `fetchIssuesLocally`. -/
structure Match where
  file : String
  line : Nat
  content : String
  url : String
deriving DecidableEq, Repr

/-- The dynamically-typed `data` field of a cache entry: the plugin
stores either a result list or (per the rate-limit sentinel read in
`fetchIssues`) a boolean flag. -/
inductive CacheData where
  | results (rs : List Match)
  | flag (b : Bool)
deriving DecidableEq, Repr

/-- `CacheEntry` from the source (the optional `etag` field is never
used by the scanned code paths and is omitted). -/
structure CacheEntry where
  timestamp : Int
  data : CacheData
deriving DecidableEq, Repr

/-- `RepoCache` from the source. -/
structure RepoCacheEntry where
  latestCommit : String
  downloadPath : String
  extractPath : String
  timestamp : Int
deriving DecidableEq, Repr

/-- `ForFixSakeSettings` from the source. -/
structure Settings where
  githubToken : String
  defaultKeywords : List String
  cacheEnabled : Bool
  cacheExpiry : Int
  tempDir : String
deriving DecidableEq, Repr

/-- The plugin's mutable maps `cache : PluginCache` and
`repoCache : RepoMap`. -/
structure PluginState where
  cache : List (String × CacheEntry)
  repoCache : List (String × RepoCacheEntry)
deriving DecidableEq, Repr

/-- `DEFAULT_SETTINGS`; `os.tmpdir()` is supplied as a parameter. -/
def DEFAULT_SETTINGS (tmpdir : String) : Settings :=
  { githubToken := ""
  , defaultKeywords := ["TODO", "FIXME"]
  , cacheEnabled := true
  , cacheExpiry := 60
  , tempDir := tmpdir }

/-! ### String-keyed map operations (JavaScript object semantics) -/

/-- Lookup `m[k]` (as `Option`, `none` for `undefined`). -/
def mapGet {α : Type} : List (String × α) → String → Option α
  | [], _ => none
  | (k', v) :: rest, k => if k' = k then some v else mapGet rest k

/-- Remove every binding of `k`. -/
def mapErase {α : Type} : List (String × α) → String → List (String × α)
  | [], _ => []
  | (k', v) :: rest, k =>
    if k' = k then mapErase rest k else (k', v) :: mapErase rest k

/-- Assignment `m[k] = v`. -/
def mapPut {α : Type} (m : List (String × α)) (k : String) (v : α) :
    List (String × α) :=
  (k, v) :: mapErase m k

/-! ### Repository-identifier parsing (both fetchers) -/

/-- `const [owner, repoName] = repo.split('/'); if (!owner || !repoName) throw`.
Destructuring takes the first two pieces of the split; a missing piece is
`undefined`, which like `''` is falsy, so both are modelled as `""`. -/
def parseRepo (repo : String) : Option (String × String) :=
  let parts := jsSplit '/' repo
  let owner := parts.getD 0 ("")
  let repoName := parts.getD 1 ("")
  if owner = "" ∨ repoName = "" then none else some (owner, repoName)

/-! ### Cache keys and expiry (fetchIssues / fetchIssuesLocally) -/

/-- `` `ratelimit-${repo}` ``. -/
def rateLimitKey (repo : String) : String := "ratelimit-" ++ repo

/-- `` `${repo}-${keywords.join(',')}` ``. -/
def resultsCacheKey (repo : String) (keywords : List String) : String :=
  repo ++ "-" ++ jsJoin (",") keywords

/-- `this.settings.cacheExpiry * 60 * 1000`. -/
def expiryMillis (s : Settings) : Int := s.cacheExpiry * 60 * 1000

/-- The cache consultation both fetchers perform: an entry is served
only when caching is enabled, the key is present, and
`now - entry.timestamp < expiryTime`. -/
def cacheFreshHit (s : Settings) (cache : List (String × CacheEntry))
    (key : String) (now : Int) : Option CacheData :=
  if s.cacheEnabled then
    match mapGet cache key with
    | some e => if now - e.timestamp < expiryMillis s then some e.data else none
    | none => none
  else none

/-! ### Line scanning -/

/-- Deep link `https://github.com/owner/repo/blob/branch/path#Lline`
built by both scanners. -/
def matchUrl (owner repoName branch pth : String) (lineNo : Nat) : String :=
  "https://github.com/" ++ owner ++ "/" ++ repoName ++ "/blob/" ++ branch
    ++ "/" ++ pth ++ "#L" ++ toString lineNo

/-- Snippet `line.trim() + nextLine` where `nextLine` is
`'\n' + lines[i+1].trim()` when a next line exists and `''` otherwise. -/
def jsSnippet (line : String) (next : Option String) : String :=
  match next with
  | some n => jsTrim line ++ "\n" ++ jsTrim n
  | none => jsTrim line

/-- `content.split('\n')`. -/
def splitLines (content : String) : List String := jsSplit '\n' content

/-- Local scanner's per-line test:
`line.toLowerCase().includes(keyword.toLowerCase())` for some keyword
(the loop body pushes once and breaks on the first hit, and the pushed
record does not depend on which keyword hit). -/
def localLineHit (keywords : List String) (line : String) : Bool :=
  keywords.any (fun k => jsIncludes (lowerStr line) (lowerStr k))

/-- The local scanner's line loop (`fetchIssuesLocally`): one `Match`
per line with a keyword hit, with `break` after the first matching
keyword.  `i` is the 0-based index of the first line of `ls`. -/
def localScanLines (owner repoName branch relPath : String)
    (keywords : List String) : List String → Nat → List Match
  | [], _ => []
  | line :: rest, i =>
    (if localLineHit keywords line then
      [{ file := relPath
       , line := i + 1
       , content := jsSnippet line rest.head?
       , url := matchUrl owner repoName branch relPath (i + 1) }]
     else [])
      ++ localScanLines owner repoName branch relPath keywords rest (i + 1)

/-- Remote fetcher's keyword loop on one line: one push per keyword `k`
with `line.includes(k + ":")`, no `break`. -/
def remoteLineHits (keywords : List String) (line : String) : List String :=
  keywords.filter (fun k => jsIncludes line (k ++ ":"))

/-- The remote fetcher's line loop (`fetchIssues`): one `Match` per
matching keyword per line (no per-line deduplication). -/
def remoteScanLines (owner repoName branch filePath : String)
    (keywords : List String) : List String → Nat → List Match
  | [], _ => []
  | line :: rest, i =>
    (remoteLineHits keywords line).map (fun _ =>
      { file := filePath
      , line := i + 1
      , content := jsSnippet line rest.head?
      , url := matchUrl owner repoName branch filePath (i + 1) })
      ++ remoteScanLines owner repoName branch filePath keywords rest (i + 1)

/-! ### File-level scanning and filters -/

/-- Extension alternatives of the remote fetcher's allow-list regex
`/\.(js|jsx|...|ml|mli)$/i` (part_000 variant). -/
def allowedExtensions : List String :=
  ["js", "jsx", "ts", "tsx", "py", "java", "rb", "php", "c", "cpp", "h",
   "hpp", "cs", "go", "rs", "swift", "kt", "sh", "md", "txt", "ml", "mli"]

/-- `file.name.match(/\.(...)$/i)` as a Boolean: the (case-folded) name
ends in a dot followed by one of the allowed extensions. -/
def hasAllowedExt (name : String) : Bool :=
  allowedExtensions.any (fun ext => jsEndsWith (lowerStr name) ("." ++ ext))

/-- A file as delivered by the remote content API, with its base64
payload already decoded to text (`none` when the response carried no
`content`, which the code skips). -/
structure RepoFile where
  path : String
  name : String
  size : Nat
  content : Option String
deriving DecidableEq, Repr

/-- Remote per-file processing: skip files over 500000 bytes or with a
disallowed extension, skip responses without content, otherwise scan
the decoded lines. -/
def remoteScanFile (owner repoName branch : String) (keywords : List String)
    (f : RepoFile) : List Match :=
  if f.size > 500000 ∨ hasAllowedExt f.name = false then []
  else
    match f.content with
    | none => []
    | some content =>
      remoteScanLines owner repoName branch f.path keywords
        (splitLines content) 0

/-- Character class `[\x00-\x08\x0B\x0C\x0E-\x1F\x7F]` of the binary
sniff regex in `fetchIssuesLocally`. -/
def isControlByte (c : Char) : Bool :=
  c.toNat ≤ 8 ∨ c.toNat = 11 ∨ c.toNat = 12 ∨
    (14 ≤ c.toNat ∧ c.toNat ≤ 31) ∨ c.toNat = 127

/-- Whether the text has a run of at least `need` consecutive
characters satisfying `p`; `cnt` counts the current run. -/
def hasRun (p : Char → Bool) (need : Nat) : List Char → Nat → Bool
  | [], cnt => need ≤ cnt
  | c :: cs, cnt =>
    if need ≤ cnt then true
    else if p c then hasRun p need cs (cnt + 1)
    else hasRun p need cs 0

/-- `content.includes('\0') || /[...]{50,}/.test(content)`. -/
def looksBinary (content : String) : Bool :=
  content.data.contains (Char.ofNat 0) || hasRun isControlByte 50 content.data 0

/-- A file found by the local directory walk: its path relative to the
snapshot root (already slash-normalized), its size, and its text
content (`none` when reading as text failed, which the code skips). -/
structure LocalFile where
  relativePath : String
  size : Nat
  text : Option String
deriving DecidableEq, Repr

/-- Local per-file processing: skip files over 500000 bytes, skip
unreadable and binary-looking files, otherwise scan the lines. -/
def localScanFile (owner repoName branch : String) (keywords : List String)
    (f : LocalFile) : List Match :=
  if f.size > 500000 then []
  else
    match f.text with
    | none => []
    | some content =>
      if looksBinary content then []
      else
        localScanLines owner repoName branch f.relativePath keywords
          (splitLines content) 0

/-! ### Effect oracles

Network and filesystem answers are inputs to the model: the remote
oracle is the whole remote API session of `fetchIssues` (metadata,
recursive listing and per-file contents, collapsed into a branch name
and a file list, or the error that aborted the session), and the local
oracle covers the API metadata calls, the download/extract outcome and
the walked files of `fetchIssuesLocally`. -/

/-- Equality of `Except` values is decidable when it is on both sides. -/
instance {ε α : Type} [DecidableEq ε] [DecidableEq α] :
    DecidableEq (Except ε α) := fun a b =>
  match a, b with
  | .error e₁, .error e₂ =>
    if h : e₁ = e₂ then .isTrue (by subst h; rfl)
    else .isFalse (by simp [h])
  | .error _, .ok _ => .isFalse (by simp)
  | .ok _, .error _ => .isFalse (by simp)
  | .ok a₁, .ok a₂ =>
    if h : a₁ = a₂ then .isTrue (by subst h; rfl)
    else .isFalse (by simp [h])

/-- Errors surfaced by the fetchers. -/
inductive FetchError where
  | invalidFormat
  | rateLimit
  | notFound
  | network (msg : String)
deriving DecidableEq, Repr

/-- Outcome of the remote API session of `fetchIssues`. -/
inductive RemoteOutcome where
  | err (e : FetchError)
  | ok (defaultBranch : String) (files : List RepoFile)
deriving DecidableEq, Repr

/-- Outcome of `downloadFile` + `extractZip` when they are attempted. -/
inductive SnapshotOutcome where
  | dlErr (e : FetchError)
  | extractErr (e : FetchError)
  | ok
deriving DecidableEq, Repr

/-- Oracle for `fetchIssuesLocally`: the repository/branch metadata
calls (branch name and head commit sha), the download outcome, and the
files produced by walking the extracted snapshot. -/
structure LocalOracle where
  meta : Except FetchError (String × String)
  snapshot : SnapshotOutcome
  files : List LocalFile
deriving DecidableEq, Repr

/-! ### fetchIssuesLocally (part_000 lines 670-848) -/

/-- Result of a `fetchIssuesLocally` run: the returned value or thrown
error, the plugin state afterwards, and counters for the network
operations performed (API metadata calls begun, archive downloads
attempted, extractions attempted). -/
structure LocalOutput where
  result : Except FetchError CacheData
  state : PluginState
  apiCalls : Nat
  downloads : Nat
  extracts : Nat
deriving DecidableEq, Repr

/-- Shallow embedding of `fetchIssuesLocally(repo, keywords)`.
Control flow, in source order: repo-format validation, result-cache
consultation, metadata fetch, snapshot reuse decision on
`repoCache[repo].latestCommit`, download + extract + `repoCache`
update when stale, directory scan, result-cache write. -/
def fetchIssuesLocally (s : Settings) (st : PluginState) (now : Int)
    (repo : String) (keywords : List String) (oc : LocalOracle) :
    LocalOutput :=
  match parseRepo repo with
  | none => ⟨.error .invalidFormat, st, 0, 0, 0⟩
  | some (owner, repoName) =>
    let cacheKey := resultsCacheKey repo keywords
    match cacheFreshHit s st.cache cacheKey now with
    | some d => ⟨.ok d, st, 0, 0, 0⟩
    | none =>
      match oc.meta with
      | .error e => ⟨.error e, st, 1, 0, 0⟩
      | .ok (defaultBranch, latestCommit) =>
        let finish := fun (st' : PluginState) (dls exts : Nat) =>
          let results :=
            oc.files.flatMap (localScanFile owner repoName defaultBranch keywords)
          let st'' :=
            if s.cacheEnabled then
              { st' with cache := mapPut st'.cache cacheKey ⟨now, .results results⟩ }
            else st'
          (⟨.ok (.results results), st'', 1, dls, exts⟩ : LocalOutput)
        let upToDate : Bool :=
          match mapGet st.repoCache repo with
          | some rc => rc.latestCommit = latestCommit
          | none => false
        if upToDate then finish st 0 0
        else
          match oc.snapshot with
          | .dlErr e => ⟨.error e, st, 1, 1, 0⟩
          | .extractErr e => ⟨.error e, st, 1, 1, 1⟩
          | .ok =>
            let repoDir := s.tempDir ++ "/" ++ owner ++ "-" ++ repoName
            let rc : RepoCacheEntry :=
              { latestCommit := latestCommit
              , downloadPath :=
                  repoDir ++ "/" ++ repoName ++ "-" ++ defaultBranch ++ ".zip"
              , extractPath := repoDir ++ "/" ++ repoName ++ "-" ++ defaultBranch
              , timestamp := now }
            finish { st with repoCache := mapPut st.repoCache repo rc } 1 1

/-! ### fetchIssues (part_000 lines 176-318) -/

/-- Result of a `fetchIssues` run: the returned value or thrown error,
the plugin state afterwards, and counters: `remoteCalls` counts remote
API sessions begun by `fetchIssues` itself, `localApiCalls` and
`downloads` count network activity of a `fetchIssuesLocally` call made
from the rate-limit-sentinel branch. -/
structure FetchOutput where
  result : Except FetchError CacheData
  state : PluginState
  remoteCalls : Nat
  localApiCalls : Nat
  downloads : Nat
deriving DecidableEq, Repr

/-- Shallow embedding of `fetchIssues(repo, keywords)`.  Control flow,
in source order: rate-limit sentinel consultation (falling back to
`fetchIssuesLocally` and re-raising a rate-limit error when the local
path fails too), result-cache consultation, repo-format validation,
remote API session, scan, result-cache write. -/
def fetchIssues (s : Settings) (st : PluginState) (now : Int)
    (repo : String) (keywords : List String) (roc : RemoteOutcome)
    (loc : LocalOracle) : FetchOutput :=
  let sentinelActive : Bool :=
    s.cacheEnabled &&
      match mapGet st.cache (rateLimitKey repo) with
      | some e =>
        (e.data = CacheData.flag true : Bool) &&
          (now - e.timestamp < expiryMillis s : Bool)
      | none => false
  if sentinelActive then
    let lr := fetchIssuesLocally s st now repo keywords loc
    match lr.result with
    | .ok d => ⟨.ok d, lr.state, 0, lr.apiCalls, lr.downloads⟩
    | .error _ => ⟨.error .rateLimit, lr.state, 0, lr.apiCalls, lr.downloads⟩
  else
    let cacheKey := resultsCacheKey repo keywords
    match cacheFreshHit s st.cache cacheKey now with
    | some d => ⟨.ok d, st, 0, 0, 0⟩
    | none =>
      match parseRepo repo with
      | none => ⟨.error .invalidFormat, st, 0, 0, 0⟩
      | some (owner, repoName) =>
        match roc with
        | .err e => ⟨.error e, st, 1, 0, 0⟩
        | .ok defaultBranch files =>
          let results :=
            files.flatMap (remoteScanFile owner repoName defaultBranch keywords)
          let st' :=
            if s.cacheEnabled then
              { st with cache := mapPut st.cache cacheKey ⟨now, .results results⟩ }
            else st
          ⟨.ok (.results results), st', 1, 0, 0⟩

/-! ### Code-block parsing in onload (part_000 lines 78-93 and the
main.ts variant lines 44-53) -/

/-- Parameters read from a `for-fix-sake` code block. -/
structure BlockParams where
  repo : String
  keywords : List String
  forceApi : Bool
deriving DecidableEq, Repr

/-- One line of the part_000 `onload` parsing loop. -/
def parseBlockLine (acc : BlockParams) (line : String) : BlockParams :=
  if jsStartsWith line ("repo:") then
    { acc with repo := jsTrim (jsDrop line 5) }
  else if jsStartsWith line ("keywords:") then
    { acc with keywords := jsSplitWS (jsTrim (jsDrop line 9)) }
  else if jsStartsWith line ("force-api:") then
    { acc with forceApi := lowerStr (jsTrim (jsDrop line 10)) = "true" }
  else acc

/-- part_000 `onload` code-block parsing: no comment stripping on the
`keywords:` line. -/
def parseBlock (defaults : List String) (source : String) : BlockParams :=
  (splitLines source).foldl parseBlockLine
    { repo := "", keywords := defaults, forceApi := false }

/-- One line of the main.ts `onload` parsing loop, which additionally
strips a trailing `#` comment from the `keywords:` line via
`keywordString.split('#')[0].trim()`. -/
def parseBlockLineMain (acc : BlockParams) (line : String) : BlockParams :=
  if jsStartsWith line ("repo:") then
    { acc with repo := jsTrim (jsDrop line 5) }
  else if jsStartsWith line ("keywords:") then
    let keywordString := jsTrim (jsDrop line 9)
    let withoutComments := jsTrim ((jsSplit '#' keywordString).getD 0 (""))
    { acc with keywords := jsSplitWS withoutComments }
  else acc

/-- main.ts `onload` code-block parsing (comment-stripping variant). -/
def parseBlockMain (defaults : List String) (source : String) : BlockParams :=
  (splitLines source).foldl parseBlockLineMain
    { repo := "", keywords := defaults, forceApi := false }

/-! ### Archive signature validation (downloadFile, part_000 lines 592-618) -/

/-- The fixed ZIP signature `PK\x03\x04`. -/
def zipSignature : List Nat := [0x50, 0x4B, 0x03, 0x04]

/-- `Buffer.alloc(4)` zero-fills; `fs.readSync(fd, header, 0, 4, 0)`
copies at most the available bytes, so missing bytes stay `0`. -/
def readHeader4 (bytes : List Nat) : List Nat :=
  bytes.take 4 ++ List.replicate (4 - (bytes.take 4).length) 0

/-- Outcome of the `finish` handler of `downloadFile`: whether the
promise resolves or rejects, and whether the downloaded file was
deleted. -/
structure DownloadFinish where
  result : Except String Unit
  fileDeleted : Bool
deriving DecidableEq, Repr

/-- The signature-validation step run when the download stream
finishes: compare the first four bytes of the file against
`zipSignature`; on mismatch delete the file and reject. -/
def finishDownload (bytes : List Nat) : DownloadFinish :=
  if readHeader4 bytes = zipSignature then ⟨.ok (), false⟩
  else ⟨.error ("Invalid ZIP file: Not a valid ZIP file (missing PK signature)"), true⟩

/-! ### Concrete fixtures used by witnesses and counterexamples -/

/-- Concrete settings: the defaults with `/tmp` as temp directory. -/
def testSettings : Settings := DEFAULT_SETTINGS ("/tmp")

/-- Fresh plugin state: both caches empty. -/
def emptyState : PluginState := ⟨[], []⟩

/-- A local oracle whose metadata call fails (network unavailable). -/
def offlineLocal : LocalOracle := ⟨.error (.network ("offline")), .ok, []⟩

/-- A local oracle that reports head commit `c1` on branch `main`. -/
def headC1Local : LocalOracle := ⟨.ok ("main", "c1"), .ok, []⟩

/-- A remote session serving one file containing one `TODO:` line. -/
def demoRemote : RemoteOutcome :=
  .ok ("main") [⟨"a.ts", "a.ts", 10, some ("x TODO: y")⟩]

/-! ## Theorems -/

theorem mapGet_mapErase {α : Type} (m : List (String × α)) (j k : String) :
    mapGet (mapErase m j) k = if j = k then none else mapGet m k := by
  induction m with
  | nil => simp [mapGet, mapErase]
  | cons p rest ih =>
    obtain ⟨k', v⟩ := p
    by_cases h : k' = j
    · subst h
      have hL : mapErase ((k', v) :: rest) k' = mapErase rest k' := by
        simp [mapErase]
      rw [hL, ih]
      by_cases hjk : k' = k
      · simp [hjk]
      · simp [mapGet, hjk]
    · have hL : mapErase ((k', v) :: rest) j = (k', v) :: mapErase rest j := by
        simp [mapErase, h]
      rw [hL]
      by_cases hkk : k' = k
      · subst hkk
        have hjk : ¬ j = k' := fun hc => h hc.symm
        simp [mapGet, hjk]
      · simp [mapGet, hkk, ih]

theorem mapErase_mapErase {α : Type} (m : List (String × α)) (k : String) :
    mapErase (mapErase m k) k = mapErase m k := by
  induction m with
  | nil => rfl
  | cons p rest ih =>
    obtain ⟨k', v⟩ := p
    by_cases h : k' = k <;> simp [mapErase, h, ih]

/-- Claim C8: after a download completes, signature validation passes
exactly when the file's first four bytes are `0x50 0x4B 0x03 0x04`
(regardless of the remaining content); otherwise the file is deleted
and the download fails with an invalid-archive error. -/
theorem downloadFile_signature_check (bytes : List Nat) :
    ((finishDownload bytes).result.isOk = true ↔ bytes.take 4 = zipSignature) ∧
    ((finishDownload bytes).fileDeleted = true ↔ ¬ bytes.take 4 = zipSignature) := by
  have hiff : (readHeader4 bytes = zipSignature) ↔ bytes.take 4 = zipSignature := by
    rcases bytes with _ | ⟨a, _ | ⟨b, _ | ⟨c, _ | ⟨d, rest⟩⟩⟩⟩ <;>
      simp [readHeader4, zipSignature]
  by_cases h : readHeader4 bytes = zipSignature
  · simp [finishDownload, h, Except.isOk, Except.toBool, hiff.mp h]
  · have h' : ¬ bytes.take 4 = zipSignature := fun hc => h (hiff.mpr hc)
    simp [finishDownload, h, Except.isOk, Except.toBool, h']

/-- Claim C4 (code bug witness): on the code block
`repo: a/b` + `keywords: TODO FIXME # trailing note`, the part_000
`onload` parser treats `#` and the comment words as keywords, while the
main.ts variant parses only the tokens before the `#` (as documented in
the README's `keywords: TODO FIXME BUG # optional...` example). -/
theorem keywords_comment_divergence :
    (parseBlock ["TODO", "FIXME"]
        ("repo: a/b\nkeywords: TODO FIXME # trailing note")).keywords
      = ["TODO", "FIXME", "#", "trailing", "note"] ∧
    (parseBlockMain ["TODO", "FIXME"]
        ("repo: a/b\nkeywords: TODO FIXME # trailing note")).keywords
      = ["TODO", "FIXME"] := by
  decide

/-- Claim C2 (code bug witness): a remote fetch that fails rate-limited
leaves the cache without any `ratelimit-` sentinel entry, so a second
remote attempt for the same repository performs a remote API call again
instead of short-circuiting to the local path. -/
theorem rateLimit_sentinel_never_written :
    (fetchIssues testSettings emptyState 0 ("octo/demo") ["TODO"]
        (.err .rateLimit) offlineLocal).result = .error .rateLimit ∧
    (fetchIssues testSettings emptyState 0 ("octo/demo") ["TODO"]
        (.err .rateLimit) offlineLocal).remoteCalls = 1 ∧
    mapGet (fetchIssues testSettings emptyState 0 ("octo/demo") ["TODO"]
        (.err .rateLimit) offlineLocal).state.cache
        (rateLimitKey ("octo/demo")) = none ∧
    (fetchIssues testSettings
        (fetchIssues testSettings emptyState 0 ("octo/demo") ["TODO"]
          (.err .rateLimit) offlineLocal).state
        0 ("octo/demo") ["TODO"] (.err .rateLimit) offlineLocal).remoteCalls = 1 := by
  decide

/-- Claim C10: in the remote fetcher, a single line matching several
configured keywords yields one `Match` per matching keyword, every one
of them with the same file, line number, snippet and url. -/
theorem remote_no_per_line_dedup
    (owner repoName branch pth line : String) (kws : List String) :
    (remoteScanLines owner repoName branch pth kws [line] 0).length
        = (kws.filter (fun k => jsIncludes line (k ++ ":"))).length ∧
    ∀ m ∈ remoteScanLines owner repoName branch pth kws [line] 0,
      m = { file := pth, line := 1, content := jsTrim line,
            url := matchUrl owner repoName branch pth 1 } := by
  constructor
  · simp [remoteScanLines, remoteLineHits, jsSnippet]
  · intro m hm
    simp only [remoteScanLines, remoteLineHits, List.append_nil,
      List.mem_map] at hm
    obtain ⟨k, _, hk⟩ := hm
    simp [jsSnippet] at hk
    exact hk.symm

/-- Witness for C10: the line `see TODO: and FIXME: here` with keywords
`TODO` and `FIXME` yields two matches, and the canonical match record
is among them with the stated fields. -/
theorem remote_no_per_line_dedup_witness :
    (remoteScanLines ("o") ("r") ("m") ("p") ["TODO", "FIXME"]
        ["see TODO: and FIXME: here"] 0).length = 2 ∧
    ({ file := "p", line := 1, content := jsTrim ("see TODO: and FIXME: here"),
       url := matchUrl ("o") ("r") ("m") ("p") 1 } : Match)
      = { file := "p", line := 1, content := jsTrim ("see TODO: and FIXME: here"),
          url := matchUrl ("o") ("r") ("m") ("p") 1 } := by
  refine ⟨?_, ?_⟩
  · rw [(remote_no_per_line_dedup ("o") ("r") ("m") ("p")
      ("see TODO: and FIXME: here") ["TODO", "FIXME"]).1]
    decide
  · exact (remote_no_per_line_dedup ("o") ("r") ("m") ("p")
      ("see TODO: and FIXME: here") ["TODO", "FIXME"]).2 _ (by decide)

/-- Claim C5: a line containing a configured keyword case-insensitively
but no colon-suffixed occurrence of any keyword is matched by the local
scanner and not by the remote fetcher. -/
theorem local_remote_matching_asymmetry
    (owner repoName branch pth : String) (kws : List String) (line : String)
    (hLocal : ∃ k ∈ kws, jsIncludes (lowerStr line) (lowerStr k) = true)
    (hRemote : ∀ k ∈ kws, jsIncludes line (k ++ ":") = false) :
    localScanLines owner repoName branch pth kws [line] 0
      = [{ file := pth, line := 1, content := jsTrim line,
           url := matchUrl owner repoName branch pth 1 }] ∧
    remoteScanLines owner repoName branch pth kws [line] 0 = [] := by
  constructor
  · have hhit : localLineHit kws line = true := by
      rcases hLocal with ⟨k, hk, hinc⟩
      exact List.any_eq_true.mpr ⟨k, hk, hinc⟩
    simp [localScanLines, hhit, jsSnippet]
  · have hnil : remoteLineHits kws line = [] := by
      apply List.filter_eq_nil_iff.mpr
      intro k hk
      simp [hRemote k hk]
    simp [remoteScanLines, hnil]

/-- Witness for C5: the line `todo fix parser` with keyword `TODO`
(spec end-to-end scenario 2). -/
theorem local_remote_matching_asymmetry_witness :
    localScanLines ("o") ("r") ("m") ("src/a.py") ["TODO"]
        ["todo fix parser"] 0
      = [{ file := "src/a.py", line := 1, content := jsTrim ("todo fix parser"),
           url := matchUrl ("o") ("r") ("m") ("src/a.py") 1 }] ∧
    remoteScanLines ("o") ("r") ("m") ("src/a.py") ["TODO"]
        ["todo fix parser"] 0 = [] :=
  local_remote_matching_asymmetry ("o") ("r") ("m") ("src/a.py") ["TODO"]
    ("todo fix parser") ⟨"TODO", by decide, by decide⟩ (by decide)

/-- Claim C6: when a snapshot record exists for the repository and its
stored commit equals the commit just retrieved from the branch head,
`fetchIssuesLocally` performs no archive download and no extraction. -/
theorem snapshot_reuse_no_download
    (s : Settings) (st : PluginState) (now : Int) (repo : String)
    (kws : List String) (oc : LocalOracle) (rc : RepoCacheEntry)
    (branch commit : String)
    (hMeta : oc.meta = .ok (branch, commit))
    (hRC : mapGet st.repoCache repo = some rc)
    (hCommit : rc.latestCommit = commit) :
    (fetchIssuesLocally s st now repo kws oc).downloads = 0 ∧
    (fetchIssuesLocally s st now repo kws oc).extracts = 0 := by
  unfold fetchIssuesLocally
  simp only []
  cases hp : parseRepo repo with
  | none => simp
  | some pr =>
    obtain ⟨owner, repoName⟩ := pr
    cases hc : cacheFreshHit s st.cache (resultsCacheKey repo kws) now with
    | some d => simp
    | none => simp [hMeta, hRC, hCommit]

/-- Witness for C6: a state whose snapshot record for `a/b` carries
commit `c1`, matching the oracle's branch head. -/
theorem snapshot_reuse_no_download_witness :
    (fetchIssuesLocally testSettings
        ⟨[], [("a/b", ⟨"c1", "dp", "ep", 5⟩)]⟩ 99 ("a/b") ["TODO"]
        headC1Local).downloads = 0 ∧
    (fetchIssuesLocally testSettings
        ⟨[], [("a/b", ⟨"c1", "dp", "ep", 5⟩)]⟩ 99 ("a/b") ["TODO"]
        headC1Local).extracts = 0 :=
  snapshot_reuse_no_download testSettings
    ⟨[], [("a/b", ⟨"c1", "dp", "ep", 5⟩)]⟩ 99 ("a/b") ["TODO"]
    headC1Local ⟨"c1", "dp", "ep", 5⟩ ("main") ("c1") (by decide) (by decide) rfl

/-- Claim C1 (counterexample): the identifier `a/b/c` has more than one
slash, yet neither fetcher rejects it — both proceed to the network,
treating it as owner `a`, name `b`. -/
theorem multi_slash_repo_not_rejected :
    (fetchIssues testSettings emptyState 0 ("a/b/c") ["TODO"]
        (.ok ("main") []) offlineLocal).result ≠ .error .invalidFormat ∧
    (fetchIssues testSettings emptyState 0 ("a/b/c") ["TODO"]
        (.ok ("main") []) offlineLocal).remoteCalls = 1 ∧
    (fetchIssuesLocally testSettings emptyState 0 ("a/b/c") ["TODO"]
        headC1Local).result ≠ .error .invalidFormat ∧
    (fetchIssuesLocally testSettings emptyState 0 ("a/b/c") ["TODO"]
        headC1Local).apiCalls = 1 ∧
    parseRepo ("a/b/c") = some ("a", "b") := by
  decide

/-- Claim C1 (amended): a repository identifier whose first or second
`/`-separated segment is empty or missing (no slash, empty owner or
empty name) makes both fetchers fail with the invalid-format error
before any network operation, provided the cache holds neither a fresh
result entry nor a rate-limit sentinel under the colliding keys. -/
theorem invalid_repo_rejected_before_network
    (s : Settings) (st : PluginState) (now : Int) (repo : String)
    (kws : List String) (roc : RemoteOutcome) (loc : LocalOracle)
    (hBad : (jsSplit '/' repo).getD 0 ("") = "" ∨
      (jsSplit '/' repo).getD 1 ("") = "")
    (hSent : mapGet st.cache (rateLimitKey repo) = none)
    (hKey : mapGet st.cache (resultsCacheKey repo kws) = none) :
    fetchIssues s st now repo kws roc loc
      = { result := .error .invalidFormat, state := st, remoteCalls := 0,
          localApiCalls := 0, downloads := 0 } ∧
    fetchIssuesLocally s st now repo kws loc
      = { result := .error .invalidFormat, state := st, apiCalls := 0,
          downloads := 0, extracts := 0 } := by
  have hParse : parseRepo repo = none := by
    unfold parseRepo
    simp only [if_pos hBad]
  have hMiss : cacheFreshHit s st.cache (resultsCacheKey repo kws) now = none := by
    unfold cacheFreshHit
    rw [hKey]
    split <;> rfl
  constructor
  · unfold fetchIssues
    rw [hSent]
    simp only [Bool.and_false, if_neg (by simp : ¬ (false = true))]
    rw [hMiss, hParse]
  · unfold fetchIssuesLocally
    rw [hParse]

/-- Witness for C1 (amended): the slash-free identifier `abc` against
the empty state. -/
theorem invalid_repo_rejected_before_network_witness :
    fetchIssues testSettings emptyState 0 ("abc") ["TODO"]
        (.ok ("main") []) offlineLocal
      = { result := .error .invalidFormat, state := emptyState,
          remoteCalls := 0, localApiCalls := 0, downloads := 0 } ∧
    fetchIssuesLocally testSettings emptyState 0 ("abc") ["TODO"] offlineLocal
      = { result := .error .invalidFormat, state := emptyState,
          apiCalls := 0, downloads := 0, extracts := 0 } :=
  invalid_repo_rejected_before_network testSettings emptyState 0 ("abc")
    ["TODO"] (.ok ("main") []) offlineLocal (by decide) rfl rfl

/-- Claim C3 (counterexample): the result-cache key joins the keywords
in the order given, not sorted, so the permuted keyword list
`FIXME TODO` does not hit the entry cached under `TODO FIXME` and a
second remote session is started. -/
theorem cache_key_not_order_insensitive :
    resultsCacheKey ("a/b") ["TODO", "FIXME"]
        ≠ resultsCacheKey ("a/b") ["FIXME", "TODO"] ∧
    (fetchIssues testSettings
        (fetchIssues testSettings emptyState 0 ("a/b") ["TODO", "FIXME"]
          demoRemote offlineLocal).state
        0 ("a/b") ["FIXME", "TODO"] demoRemote offlineLocal).remoteCalls = 1 ∧
    (fetchIssues testSettings
        (fetchIssues testSettings emptyState 0 ("a/b") ["TODO", "FIXME"]
          demoRemote offlineLocal).state
        0 ("a/b") ["TODO", "FIXME"] demoRemote offlineLocal).remoteCalls = 0 := by
  decide

/-- Claim C3 (amended): the result-cache key is the repository
identifier composed with the keyword list joined in the given order;
a cached result is served to a later request exactly when the joined
keyword strings coincide (same key), the entry is fresh, and caching
is enabled. -/
theorem cache_key_join_order
    (s : Settings) (st : PluginState) (now ts : Int) (repo : String)
    (kws kws' : List String) (d : CacheData) (roc : RemoteOutcome)
    (loc : LocalOracle)
    (hJoin : jsJoin (",") kws = jsJoin (",") kws')
    (hEnabled : s.cacheEnabled = true)
    (hSent : mapGet st.cache (rateLimitKey repo) = none)
    (hEntry : mapGet st.cache (resultsCacheKey repo kws) = some ⟨ts, d⟩)
    (hFresh : now - ts < expiryMillis s) :
    resultsCacheKey repo kws = resultsCacheKey repo kws' ∧
    fetchIssues s st now repo kws' roc loc
      = { result := .ok d, state := st, remoteCalls := 0,
          localApiCalls := 0, downloads := 0 } := by
  have hkeys : resultsCacheKey repo kws = resultsCacheKey repo kws' := by
    unfold resultsCacheKey
    rw [hJoin]
  refine ⟨hkeys, ?_⟩
  have hHit : cacheFreshHit s st.cache (resultsCacheKey repo kws') now = some d := by
    unfold cacheFreshHit
    rw [if_pos hEnabled, ← hkeys, hEntry]
    simp only [if_pos hFresh]
  unfold fetchIssues
  rw [hSent]
  simp only [Bool.and_false, if_neg (by simp : ¬ (false = true))]
  rw [hHit]

/-- Witness for C3 (amended): a state caching results for `a/b` under
keyword list `TODO FIXME`, served again for the identical list. -/
theorem cache_key_join_order_witness :
    resultsCacheKey ("a/b") ["TODO", "FIXME"]
        = resultsCacheKey ("a/b") ["TODO", "FIXME"] ∧
    fetchIssues testSettings
        ⟨[(resultsCacheKey ("a/b") ["TODO", "FIXME"], ⟨0, .results []⟩)], []⟩
        1 ("a/b") ["TODO", "FIXME"] demoRemote offlineLocal
      = { result := .ok (.results []),
          state := ⟨[(resultsCacheKey ("a/b") ["TODO", "FIXME"], ⟨0, .results []⟩)], []⟩,
          remoteCalls := 0, localApiCalls := 0, downloads := 0 } :=
  cache_key_join_order testSettings
    ⟨[(resultsCacheKey ("a/b") ["TODO", "FIXME"], ⟨0, .results []⟩)], []⟩
    1 0 ("a/b") ["TODO", "FIXME"] ["TODO", "FIXME"] (.results [])
    demoRemote offlineLocal rfl rfl (by decide) (by decide) (by decide)

/-- Claim C7: reading an expired cache entry behaves as if the key
were absent — the run's result equals the run on the state with the
entry erased — and exactly one underlying fetch (remote session for
`fetchIssues`, metadata-call-plus-scan for `fetchIssuesLocally`) is
performed. -/
theorem expired_cache_entry_ignored
    (s : Settings) (st : PluginState) (now : Int) (repo : String)
    (kws : List String) (roc : RemoteOutcome) (loc : LocalOracle)
    (e : CacheEntry)
    (hEntry : mapGet st.cache (resultsCacheKey repo kws) = some e)
    (hExpired : expiryMillis s ≤ now - e.timestamp)
    (hSent : mapGet st.cache (rateLimitKey repo) = none)
    (hValid : (parseRepo repo).isSome = true) :
    (fetchIssues s st now repo kws roc loc).result
        = (fetchIssues s
            { st with cache := mapErase st.cache (resultsCacheKey repo kws) }
            now repo kws roc loc).result ∧
    (fetchIssues s st now repo kws roc loc).remoteCalls = 1 ∧
    (fetchIssuesLocally s st now repo kws loc).result
        = (fetchIssuesLocally s
            { st with cache := mapErase st.cache (resultsCacheKey repo kws) }
            now repo kws loc).result ∧
    (fetchIssuesLocally s st now repo kws loc).apiCalls = 1 := by
  obtain ⟨pr, hpr⟩ : ∃ pr, parseRepo repo = some pr :=
    Option.isSome_iff_exists.mp hValid
  obtain ⟨owner, repoName⟩ := pr
  have hNotFresh : ¬ now - e.timestamp < expiryMillis s := not_lt.mpr hExpired
  have hMiss : cacheFreshHit s st.cache (resultsCacheKey repo kws) now = none := by
    unfold cacheFreshHit
    rw [hEntry]
    split <;> simp [hNotFresh]
  have hMissErased :
      cacheFreshHit s (mapErase st.cache (resultsCacheKey repo kws))
        (resultsCacheKey repo kws) now = none := by
    unfold cacheFreshHit
    rw [mapGet_mapErase]
    split <;> simp
  have hSentErased :
      mapGet (mapErase st.cache (resultsCacheKey repo kws))
        (rateLimitKey repo) = none := by
    rw [mapGet_mapErase]
    split
    · rfl
    · exact hSent
  refine ⟨?_, ?_, ?_, ?_⟩
  · unfold fetchIssues
    simp only []
    rw [hSent, hSentErased]
    simp only [Bool.and_false, Bool.false_eq_true, if_neg (by simp : ¬ False)]
    rw [hMiss, hMissErased, hpr]
    cases roc with
    | err e => rfl
    | ok defaultBranch files => rfl
  · unfold fetchIssues
    simp only []
    rw [hSent]
    simp only [Bool.and_false, Bool.false_eq_true, if_neg (by simp : ¬ False)]
    rw [hMiss, hpr]
    cases roc with
    | err e => rfl
    | ok defaultBranch files => rfl
  · unfold fetchIssuesLocally
    simp only []
    rw [hpr, hMiss, hMissErased]
    cases loc.meta with
    | error e => rfl
    | ok p =>
      obtain ⟨defaultBranch, latestCommit⟩ := p
      simp only []
      cases hrc : mapGet st.repoCache repo with
      | some rc =>
        by_cases hcm : rc.latestCommit = latestCommit
        · simp [hrc, hcm]
        · simp only [hrc, hcm]
          cases loc.snapshot with
          | dlErr e => rfl
          | extractErr e => rfl
          | ok => simp
      | none =>
        simp only [hrc]
        cases loc.snapshot with
        | dlErr e => rfl
        | extractErr e => rfl
        | ok => simp
  · unfold fetchIssuesLocally
    simp only []
    rw [hpr, hMiss]
    cases loc.meta with
    | error e => rfl
    | ok p =>
      obtain ⟨defaultBranch, latestCommit⟩ := p
      simp only []
      cases hrc : mapGet st.repoCache repo with
      | some rc =>
        by_cases hcm : rc.latestCommit = latestCommit
        · simp [hrc, hcm]
        · simp only [hrc, hcm]
          cases loc.snapshot with
          | dlErr e => rfl
          | extractErr e => rfl
          | ok => simp
      | none =>
        simp only [hrc]
        cases loc.snapshot with
        | dlErr e => rfl
        | extractErr e => rfl
        | ok => simp

/-- Witness for C7: a state with a one-hour-old entry under the key for
`a/b` with keywords `TODO`, read at the expiry boundary. -/
theorem expired_cache_entry_ignored_witness :
    (fetchIssues testSettings
        ⟨[(resultsCacheKey ("a/b") ["TODO"], ⟨0, .results []⟩)], []⟩
        3600000 ("a/b") ["TODO"] demoRemote offlineLocal).result
      = (fetchIssues testSettings
          ⟨mapErase [(resultsCacheKey ("a/b") ["TODO"], ⟨0, .results []⟩)]
            (resultsCacheKey ("a/b") ["TODO"]), []⟩
          3600000 ("a/b") ["TODO"] demoRemote offlineLocal).result ∧
    (fetchIssues testSettings
        ⟨[(resultsCacheKey ("a/b") ["TODO"], ⟨0, .results []⟩)], []⟩
        3600000 ("a/b") ["TODO"] demoRemote offlineLocal).remoteCalls = 1 ∧
    (fetchIssuesLocally testSettings
        ⟨[(resultsCacheKey ("a/b") ["TODO"], ⟨0, .results []⟩)], []⟩
        3600000 ("a/b") ["TODO"] offlineLocal).result
      = (fetchIssuesLocally testSettings
          ⟨mapErase [(resultsCacheKey ("a/b") ["TODO"], ⟨0, .results []⟩)]
            (resultsCacheKey ("a/b") ["TODO"]), []⟩
          3600000 ("a/b") ["TODO"] offlineLocal).result ∧
    (fetchIssuesLocally testSettings
        ⟨[(resultsCacheKey ("a/b") ["TODO"], ⟨0, .results []⟩)], []⟩
        3600000 ("a/b") ["TODO"] offlineLocal).apiCalls = 1 :=
  expired_cache_entry_ignored testSettings
    ⟨[(resultsCacheKey ("a/b") ["TODO"], ⟨0, .results []⟩)], []⟩
    3600000 ("a/b") ["TODO"] demoRemote offlineLocal ⟨0, .results []⟩
    (by decide) (by decide) (by decide) (by decide)

theorem localScanLines_mem (owner repoName branch relPath : String)
    (kws : List String) (ls : List String) :
    ∀ (i : Nat) (m : Match),
      m ∈ localScanLines owner repoName branch relPath kws ls i →
      i + 1 ≤ m.line ∧ m.line ≤ i + ls.length ∧
      m.content = jsSnippet (ls.getD (m.line - i - 1) ("")) (ls.get? (m.line - i)) := by
  induction ls with
  | nil => intro i m hm; simp [localScanLines] at hm
  | cons line rest ih =>
    intro i m hm
    simp only [localScanLines, List.mem_append] at hm
    rcases hm with h1 | h2
    · by_cases hhit : localLineHit kws line = true
      · rw [if_pos hhit] at h1
        simp only [List.mem_singleton] at h1
        subst h1
        refine ⟨le_refl _, by simp only [List.length_cons]; omega, ?_⟩
        have e1 : i + 1 - i - 1 = 0 := by omega
        have e2 : i + 1 - i = 1 := by omega
        simp only [e1, e2, List.getD_cons_zero, List.get?_cons_succ]
        cases rest with
        | nil => rfl
        | cons r rs => rfl
      · rw [if_neg hhit] at h1
        simp at h1
    · obtain ⟨h1', h2', h3'⟩ := ih (i + 1) m h2
      refine ⟨by omega, by simp only [List.length_cons]; omega, ?_⟩
      obtain ⟨j, hj⟩ : ∃ j, m.line = i + 2 + j := ⟨m.line - (i + 2), by omega⟩
      rw [hj] at h3' ⊢
      have e1 : i + 2 + j - i - 1 = j + 1 := by omega
      have e2 : i + 2 + j - i = j + 2 := by omega
      have e3 : i + 2 + j - (i + 1) - 1 = j := by omega
      have e4 : i + 2 + j - (i + 1) = j + 1 := by omega
      rw [e1, e2]
      rw [e3, e4] at h3'
      simpa using h3'

theorem localScanLines_line_count (owner repoName branch relPath : String)
    (kws : List String) (ls : List String) :
    ∀ (i n : Nat),
      ((localScanLines owner repoName branch relPath kws ls i).filter
          (fun m => m.line = n)).length ≤ 1 := by
  induction ls with
  | nil => intro i n; simp [localScanLines]
  | cons line rest ih =>
    intro i n
    simp only [localScanLines, List.filter_append, List.length_append]
    by_cases hhit : localLineHit kws line = true
    · rw [if_pos hhit]
      by_cases hn : n = i + 1
      · have htail :
            ((localScanLines owner repoName branch relPath kws rest (i + 1)).filter
              (fun m => m.line = n)).length = 0 := by
          rw [List.length_eq_zero, List.filter_eq_nil_iff]
          intro m hm
          have hb := (localScanLines_mem owner repoName branch relPath kws rest
            (i + 1) m hm).1
          simp only [decide_eq_true_eq]
          omega
        rw [htail]
        have hle := List.length_filter_le (fun m => decide (m.line = n))
          [({ file := relPath, line := i + 1,
              content := jsSnippet line rest.head?,
              url := matchUrl owner repoName branch relPath (i + 1) } : Match)]
        simp only [List.length_singleton] at hle
        omega
      · have hne : ¬ (i + 1 = n) := by omega
        have hhead :
            (List.filter (fun m => m.line = n)
              [({ file := relPath, line := i + 1,
                  content := jsSnippet line rest.head?,
                  url := matchUrl owner repoName branch relPath (i + 1) } : Match)]).length = 0 := by
          simp [List.filter, hne]
        rw [hhead]
        simpa using ih (i + 1) n
    · rw [if_neg hhit]
      simpa using ih (i + 1) n


/-- Claim C9: the local scanner emits at most one Match per line (the
keyword loop breaks on the first hit), and each emitted Match's snippet
is the trimmed line joined by a newline with the trimmed next line when
one exists, and the trimmed line alone for the last line. -/
theorem local_scan_one_match_per_line
    (owner repoName branch relPath : String) (kws : List String)
    (ls : List String) :
    (∀ n : Nat,
      ((localScanLines owner repoName branch relPath kws ls 0).filter
          (fun m => m.line = n)).length ≤ 1) ∧
    (∀ m ∈ localScanLines owner repoName branch relPath kws ls 0,
      m.content = jsSnippet (ls.getD (m.line - 1) ("")) (ls.get? m.line)) := by
  constructor
  · intro n
    exact localScanLines_line_count owner repoName branch relPath kws ls 0 n
  · intro m hm
    have h := (localScanLines_mem owner repoName branch relPath kws ls 0 m hm).2.2
    simpa using h

/-- Witness for C9: scanning `x TODO y` followed by `next line` with
keyword `TODO` — at most one match for line 1, and the match's snippet
is the two trimmed lines joined by a newline. -/
theorem local_scan_one_match_per_line_witness :
    ((localScanLines ("o") ("r") ("m") ("p") ["TODO"]
        ["x TODO y", " next line "] 0).filter
        (fun m => m.line = 1)).length ≤ 1 ∧
    ({ file := "p", line := 1,
       content := jsSnippet ("x TODO y") (some (" next line ")),
       url := matchUrl ("o") ("r") ("m") ("p") 1 } : Match).content
      = jsSnippet ((["x TODO y", " next line "] : List String).getD 0 (""))
          ((["x TODO y", " next line "] : List String).get? 1) := by
  refine ⟨(local_scan_one_match_per_line ("o") ("r") ("m") ("p") ["TODO"]
    ["x TODO y", " next line "]).1 1, ?_⟩
  have h := (local_scan_one_match_per_line ("o") ("r") ("m") ("p") ["TODO"]
      ["x TODO y", " next line "]).2
      { file := "p", line := 1,
        content := jsSnippet ("x TODO y") (some (" next line ")),
        url := matchUrl ("o") ("r") ("m") ("p") 1 } (by decide)
  simp at h
  simp [h]

end ForFixSake

